import Mathlib

/-!
Verification of the RTMP ingest server of VenusAutoController
(`src/app/services/rtmp_server.py`), as a shallow embedding in Lean 4.

Bytes are modelled as `Nat` (values below 256), byte strings as `List Nat`.
Wall-clock times (Python floats from `time.time()`) are modelled as `ℚ`.
Python `int` timestamps are modelled as `Int`.
-/

namespace Venus

/-! ## Frame extractor (`_read_ffmpeg_output`)

`find2 a b l` is Python's `l.find(bytes([a, b]))`: the index of the first
occurrence of the two-byte pattern `a b` in `l`, `none` for Python's `-1`.
Python's `l.find(pat, s)` is modelled as `find2 a b (l.drop s)` (relative
index). -/

def find2 (a b : Nat) : List Nat → Option Nat
  | x :: y :: rest =>
      if x = a ∧ y = b then some 0
      else (find2 a b (y :: rest)).map (· + 1)
  | _ => none

/-- The mutable state touched by the extractor worker: the stream's
`last_frame` and `frame_count` fields, the worker-local `frame_count`
counter, and (as a history, for specification purposes) the list of all
frames ever stored into `last_frame`, in order. -/
structure WorkerState where
  last_frame : Option (List Nat)
  frame_count : Nat
  local_count : Nat
  published : List (List Nat)
  deriving Repr, DecidableEq

/-- The inner `while True` scan loop of `_read_ffmpeg_output`: repeatedly
find `FF D8`, then `FF D9` starting two bytes later, publish
`buffer[start : end+2]` as the latest frame, store the local counter into
`frame_count`, drop the consumed prefix and increment the local counter.
Returns the remaining buffer and the updated state. -/
def scan_buffer (buffer : List Nat) (st : WorkerState) : List Nat × WorkerState :=
  if h1 : (find2 255 216 buffer).isSome then
    let s := (find2 255 216 buffer).get h1
    if h2 : (find2 255 217 (buffer.drop (s + 2))).isSome then
      let r := (find2 255 217 (buffer.drop (s + 2))).get h2
      let e := s + 2 + r
      let frame := (buffer.take (e + 2)).drop s
      scan_buffer (buffer.drop (e + 2))
        { last_frame := some frame,
          frame_count := st.local_count,
          local_count := st.local_count + 1,
          published := st.published ++ [frame] }
    else (buffer, st)
  else (buffer, st)
  termination_by buffer.length
  decreasing_by
    simp only [List.length_drop]
    have hlen : 1 ≤ buffer.length := by
      cases hb : buffer with
      | nil => rw [hb] at h1; simp [find2] at h1
      | cons x t => simp
    omega

/-- The outer read loop of `_read_ffmpeg_output`: each element of `chunks`
is one successful `stdout.read(4096)` result; an empty read means EOF and
breaks the loop. The buffer persists across reads. -/
def read_worker (chunks : List (List Nat)) (buffer : List Nat) (st : WorkerState) :
    WorkerState :=
  match chunks with
  | [] => st
  | c :: rest =>
    if c = [] then st
    else
      let p := scan_buffer (buffer ++ c) st
      read_worker rest p.1 p.2

/-- Running the extractor worker from its initial state (`buffer = b''`,
local counter 0, stream fields at their dataclass defaults). -/
def run_extractor (chunks : List (List Nat)) : WorkerState :=
  read_worker chunks [] { last_frame := none, frame_count := 0, local_count := 0, published := [] }

/-- A well-formed JPEG frame with interior `p`: start marker `FF D8`,
then `p`, then end marker `FF D9`. -/
def mkFrame (p : List Nat) : List Nat :=
  255 :: 216 :: (p ++ [255, 217])

/-! ## FLV muxer (`_build_flv_header`, `_build_flv_tag`) -/

/-- `_build_flv_header`: signature `FLV`, version 1, video-only flag,
header size 9, previous-tag-size 0. -/
def build_flv_header : List Nat :=
  [0x46, 0x4C, 0x56, 0x01] ++ [0x01] ++ [0x00, 0x00, 0x00, 0x09] ++ [0x00, 0x00, 0x00, 0x00]

/-- `_build_flv_tag`: tag type byte, 3-byte big-endian data size, 3-byte
timestamp plus extended-timestamp byte, 3-byte stream id (always 0), the
payload, and a 4-byte big-endian previous-tag-size equal to `11 + data_size`.
The `% 256` mirror Python's `& 0xFF`. -/
def build_flv_tag (tag_type : Nat) (timestamp : Nat) (data : List Nat) : List Nat :=
  let data_size := data.length
  let prev_tag_size := 11 + data_size
  [tag_type]
    ++ [(data_size >>> 16) % 256, (data_size >>> 8) % 256, data_size % 256]
    ++ [(timestamp >>> 16) % 256, (timestamp >>> 8) % 256, timestamp % 256]
    ++ [(timestamp >>> 24) % 256]
    ++ [0, 0, 0]
    ++ data
    ++ [(prev_tag_size >>> 24) % 256, (prev_tag_size >>> 16) % 256,
        (prev_tag_size >>> 8) % 256, prev_tag_size % 256]

/-- Big-endian encoding of `v` on `n` bytes (most significant first). -/
def beBytes : Nat → Nat → List Nat
  | 0, _ => []
  | n + 1, v => (v >>> (8 * n)) % 256 :: beBytes n v

/-- Big-endian decoding of a byte list. -/
def beVal (l : List Nat) : Nat :=
  l.foldl (fun a b => a * 256 + b) 0

/-! ## The `RTMPStream` dataclass and the global `_streams` registry

The registry is a Python dict keyed by stream key; we model it as an
association list with dict semantics (assignment replaces in place,
`del` removes the key).  ffmpeg subprocesses are modelled by numeric
process ids; the set of ids whose process is currently running is kept
in the system state (`alive`). -/

/-- The `RTMPStream` dataclass.  `ffmpeg_process` holds the id of the
owned subprocess, if any. -/
structure RTMPStream where
  stream_key : String
  app : String := "live"
  frame_count : Nat := 0
  packet_count : Nat := 0
  last_update : ℚ := 0
  last_frame : Option (List Nat) := none
  ffmpeg_process : Option Nat := none
  running : Bool := false
  flv_header_sent : Bool := false
  base_timestamp : Int := 0
  deriving Repr, DecidableEq

abbrev Registry := List (String × RTMPStream)

/-- Python dict assignment `d[k] = v`: replace the value in place if the
key is present, else append. -/
def dictInsert (k : String) (v : RTMPStream) : Registry → Registry
  | [] => [(k, v)]
  | (k1, v1) :: rest => if k1 = k then (k, v) :: rest else (k1, v1) :: dictInsert k v rest

/-- Python `del d[k]` (keys are unique in a dict). -/
def dictRemove (k : String) (d : Registry) : Registry :=
  d.filter (fun kv => kv.1 ≠ k)

/-- The whole server state: the `_streams` registry, the set of running
subprocess ids, and a counter of fresh process ids. -/
structure SysState where
  streams : Registry
  alive : List Nat
  next_pid : Nat
  deriving Repr, DecidableEq

def initState : SysState := { streams := [], alive := [], next_pid := 0 }

/-- `_start_ffmpeg`: look the stream up; if spawning succeeds
(`spawn_ok`, covering both ffmpeg availability and `Popen` success)
attach a fresh running process to the stream and mark it running. -/
def start_ffmpeg (stream_key : String) (spawn_ok : Bool) (s : SysState) : SysState :=
  match s.streams.lookup stream_key with
  | none => s
  | some st =>
    if spawn_ok then
      { s with
        streams := dictInsert stream_key
          { st with ffmpeg_process := some s.next_pid, running := true } s.streams,
        alive := s.next_pid :: s.alive,
        next_pid := s.next_pid + 1 }
    else s

/-- `_stop_ffmpeg`: if the stream exists, clear its running flag, then
terminate (or kill) its process if present and null the handle.  Both
`terminate`+`wait` and `kill` end with the process not running. -/
def stop_ffmpeg (stream_key : String) (s : SysState) : SysState :=
  match s.streams.lookup stream_key with
  | none => s
  | some st =>
    match st.ffmpeg_process with
    | none =>
      { s with streams := dictInsert stream_key { st with running := false } s.streams }
    | some pid =>
      { s with
        streams := dictInsert stream_key
          { st with running := false, ffmpeg_process := none } s.streams,
        alive := s.alive.filter (fun q => q ≠ pid) }

/-- `CameraRTMPController.on_ns_publish`: store a fresh `RTMPStream`
under the publish name (replacing any prior entry, as Python dict
assignment does) and start ffmpeg.  Returns the controller's new
`stream_key` and the new system state. -/
def on_ns_publish (publishing_name : String) (now : ℚ) (spawn_ok : Bool) (s : SysState) :
    Option String × SysState :=
  let s1 := { s with
    streams := dictInsert publishing_name
      { stream_key := publishing_name, last_update := now } s.streams }
  (some publishing_name, start_ffmpeg publishing_name spawn_ok s1)

/-- `CameraRTMPController._cleanup` (run on close/delete commands, stream
close and connection teardown): `if self.stream_key:` — a truthy (set and
non-empty) stream key — stop its ffmpeg, delete the registry entry if
present, and clear the key.  A `None` or empty key does nothing. -/
def controller_cleanup (ckey : Option String) (s : SysState) : Option String × SysState :=
  match ckey with
  | none => (none, s)
  | some stream_key =>
    if stream_key = "" then (ckey, s)
    else
      let s1 := stop_ffmpeg stream_key s
      (none, { s1 with streams := dictRemove stream_key s1.streams })

/-- `RTMPServer.remove_stream`: if the key is present, stop its ffmpeg and
delete it, returning `true`; otherwise return `false`. -/
def remove_stream (stream_key : String) (s : SysState) : Bool × SysState :=
  if (s.streams.lookup stream_key).isSome then
    let s1 := stop_ffmpeg stream_key s
    (true, { s1 with streams := dictRemove stream_key s1.streams })
  else (false, s)

/-- `RTMPServer.get_frame`: the stream's `last_frame` if the stream
exists, else `None`. -/
def get_frame (stream_key : String) (s : SysState) : Option (List Nat) :=
  match s.streams.lookup stream_key with
  | none => none
  | some st => st.last_frame

/-! ## Status reporting (`get_status`, `list_streams`) -/

/-- The dict returned by `RTMPServer.get_status`.  `last_update` is
`None` exactly when the stored float is falsy (0). -/
structure Status where
  stream_key : String
  app : String
  frame_count : Nat
  packet_count : Nat
  is_online : Bool
  last_update : Option ℚ
  deriving Repr, DecidableEq

/-- `RTMPServer.get_status`: `None` for an unknown key; otherwise a
status dict with `is_online = (now - last_update) < 30 if last_update
else False` (`now` is `time.time()`). -/
def get_status (stream_key : String) (now : ℚ) (s : SysState) : Option Status :=
  match s.streams.lookup stream_key with
  | none => none
  | some st =>
    some
      { stream_key := st.stream_key,
        app := st.app,
        frame_count := st.frame_count,
        packet_count := st.packet_count,
        is_online := if st.last_update ≠ 0 then decide (now - st.last_update < 30) else false,
        last_update := if st.last_update ≠ 0 then some st.last_update else none }

/-- A `get_status` call as a state transition: the method only reads the
registry, so the state component is returned unchanged. -/
def get_status_step (stream_key : String) (now : ℚ) (s : SysState) :
    Option Status × SysState :=
  (get_status stream_key now s, s)

/-- `RTMPServer.list_streams`: `get_status` of every key of the
registry, in registry order. -/
def list_streams (now : ℚ) (s : SysState) : List (Option Status) :=
  s.streams.map (fun kv => get_status kv.1 now s)

/-! ## Video message handling (`on_video_message`) -/

/-- Outcome of the `try` block's writes to the ffmpeg stdin.
`failHeader`: the very first write attempted inside the `try` raised
(when the FLV header has not been sent yet, that is the header write).
`failTag`: the tag write (or the flush) raised; when the header had not
been sent, the header write itself succeeded first, so the header-sent
flag and the base timestamp are already set. `ok`: no exception. -/
inductive WriteOutcome where
  | ok
  | failHeader
  | failTag
  deriving Repr, DecidableEq

/-- The body of `CameraRTMPController.on_video_message` acting on one
`RTMPStream` (the stream was already looked up and found).  `t` is
`message.timestamp`, `payload` is `message.payload`, `now` is
`time.time()`, `w` the write outcome.  Returns the updated stream, the
bytes successfully written to ffmpeg stdin, and — when a tag was
emitted — the clamped timestamp and payload it carried. -/
def stream_on_video (st : RTMPStream) (t : Int) (payload : List Nat) (now : ℚ)
    (w : WriteOutcome) : RTMPStream × List Nat × Option (Int × List Nat) :=
  let st1 := { st with packet_count := st.packet_count + 1, last_update := now }
  if st1.ffmpeg_process.isSome then
    if st1.flv_header_sent = false then
      match w with
      | .failHeader => (st1, [], none)
      | .failTag =>
        ({ st1 with flv_header_sent := true, base_timestamp := t }, build_flv_header, none)
      | .ok =>
        let st2 := { st1 with flv_header_sent := true, base_timestamp := t }
        let ts := max (t - st2.base_timestamp) 0
        (st2, build_flv_header ++ build_flv_tag 9 ts.toNat payload, some (ts, payload))
    else
      match w with
      | .ok =>
        let ts := max (t - st1.base_timestamp) 0
        (st1, build_flv_tag 9 ts.toNat payload, some (ts, payload))
      | _ => (st1, [], none)
  else (st1, [], none)

/-- `CameraRTMPController.on_video_message` at the system level: no-op
when the controller's stream key is falsy (`if not self.stream_key:` —
unset or the empty string) or the key is not registered; otherwise
update the registered stream in place. -/
def on_video_message (ckey : Option String) (t : Int) (payload : List Nat) (now : ℚ)
    (w : WriteOutcome) (s : SysState) : SysState × List Nat × Option (Int × List Nat) :=
  match ckey with
  | none => (s, [], none)
  | some stream_key =>
    if stream_key = "" then (s, [], none)
    else
      match s.streams.lookup stream_key with
      | none => (s, [], none)
      | some st =>
        let r := stream_on_video st t payload now w
        ({ s with streams := dictInsert stream_key r.1 s.streams }, r.2.1, r.2.2)

/-- One video message for the muxer run: protocol timestamp, payload,
arrival time, write outcome. -/
structure VideoMsg where
  t : Int
  payload : List Nat
  now : ℚ
  w : WriteOutcome

/-- Feeding a sequence of video messages to one stream, collecting the
emitted tags (clamped timestamp and payload, in emission order). -/
def run_video (st : RTMPStream) : List VideoMsg → RTMPStream × List (Int × List Nat)
  | [] => (st, [])
  | m :: rest =>
    let r := stream_on_video st m.t m.payload m.now m.w
    let q := run_video r.1 rest
    (q.1, (r.2.2.toList) ++ q.2)

/-! ## MJPEG broadcaster (`RTMPServer.generate_mjpeg`)

Each loop iteration polls `_streams.get(stream_key)`; we model the
sequence of poll observations a viewer's loop sees: `absent` when the
key is gone from the registry, `present f` with the stream's current
`last_frame` otherwise. -/

inductive Poll where
  | absent
  | present (last_frame : Option (List Nat))
  deriving Repr, DecidableEq

/-- Python truthiness of `stream.last_frame` (`None` and `b''` are
falsy). -/
def frameTruthy : Option (List Nat) → Bool
  | none => false
  | some f => f ≠ []

/-- The `generate_mjpeg` loop run against a finite list of poll
observations, starting from local state `last` (`last_frame` variable)
and `cnt` (`no_frame_count`).  Returns the frames carried by the yielded
multipart records, in order, and the number of polls consumed before the
loop broke (all of them if it never broke). -/
def mjpeg_run : List Poll → Option (List Nat) → Nat → List (List Nat) × Nat
  | [], _, _ => ([], 0)
  | .absent :: _, _, _ => ([], 1)
  | .present f :: rest, last, cnt =>
    if frameTruthy f then
      if f ≠ last then
        (f.getD [] :: (mjpeg_run rest f 0).1, (mjpeg_run rest f 0).2 + 1)
      else
        ((mjpeg_run rest last 0).1, (mjpeg_run rest last 0).2 + 1)
    else
      if cnt + 1 > 200 then ([], 1)
      else ((mjpeg_run rest last (cnt + 1)).1, (mjpeg_run rest last (cnt + 1)).2 + 1)

/-- The body of each yielded record: the multipart boundary and header
bytes, the frame, and a trailing CRLF. -/
def mjpeg_record (frame : List Nat) : List Nat :=
  (("--frame" ++ String.mk [Char.ofNat 13, Char.ofNat 10] ++
    "Content-Type: image/jpeg" ++ String.mk [Char.ofNat 13, Char.ofNat 10, Char.ofNat 13, Char.ofNat 10]).toList.map Char.toNat)
    ++ frame ++ [13, 10]

/-! ## Unknown-command fallback (`on_unknown_message`,
`_parse_transaction_id`, `_create_result_response`)

AMF0 payload contents are modelled as lists of decoded values rather
than as their byte encoding; `tid_parse` is the outcome of
deserializing the command's transaction id from its payload (`none`
when deserialization raises or the value is falsy/non-numeric, in which
case `_parse_transaction_id` yields 0). -/

inductive AMF0Value where
  | num (x : Int)
  | str (s : String)
  | boolean (b : Bool)
  | null
  deriving Repr, DecidableEq

/-- `_parse_transaction_id`: the deserialized transaction id, 0 when it
cannot be obtained. -/
def parse_transaction_id (tid_parse : Option Int) : Int :=
  tid_parse.getD 0

/-- The `Chunk` built by `_create_result_response`, with its payload as
decoded AMF0 values. -/
structure ResultChunk where
  chunk_type : Nat
  chunk_id : Nat
  timestamp : Nat
  msg_type_id : Nat
  msg_stream_id : Nat
  payload : List AMF0Value
  deriving Repr, DecidableEq

/-- `_create_result_response`: a `_result` command on the given chunk
id, carrying the transaction id and two nulls. -/
def create_result_response (chunk_id : Nat) (transaction_id : Int) : ResultChunk :=
  { chunk_type := 0,
    chunk_id := chunk_id,
    timestamp := 0,
    msg_type_id := 0x14,
    msg_stream_id := 0,
    payload := [.str "_result", .num transaction_id, .null, .null] }

/-- An unrecognized message as seen by `on_unknown_message`: whether it
has a `command_name` attribute, the name, the chunk id, and the parse
outcome of its transaction id. -/
structure UnknownMsg where
  has_command_name : Bool
  command_name : String
  chunk_id : Nat
  tid_parse : Option Int

/-- `on_unknown_message`: reply with a `_result` chunk to
`releaseStream` and `FCPublish`, do nothing otherwise.  The returned
value is what gets written to the connection (`none`: nothing). -/
def on_unknown_message (m : UnknownMsg) : Option ResultChunk :=
  if m.has_command_name then
    let tid := parse_transaction_id m.tid_parse
    if m.command_name = "releaseStream" ∨ m.command_name = "FCPublish" then
      some (create_result_response m.chunk_id tid)
    else none
  else none

/-- `buffer` holds no complete frame: either no start marker, or no end
marker after the first start marker.  This is exactly the condition under
which the scan loop leaves the buffer untouched. -/
def no_complete (l : List Nat) : Bool :=
  ((find2 255 216 l).map (fun s => (find2 255 217 (l.drop (s + 2))).isNone)).getD true

/-! ## Helper lemmas about `find2` and the scan loop -/

theorem find2_some_lt (a b : Nat) :
    ∀ (l : List Nat) (i : Nat), find2 a b l = some i → i + 1 < l.length
  | [], i, h => by simp [find2] at h
  | [x], i, h => by simp [find2] at h
  | x :: y :: rest, i, h => by
    simp only [find2] at h
    by_cases hp : x = a ∧ y = b
    · simp only [if_pos hp, Option.some.injEq] at h
      simp [← h]
    · simp only [if_neg hp] at h
      cases hfind : find2 a b (y :: rest) with
      | none => rw [hfind] at h; simp at h
      | some j =>
        rw [hfind] at h
        simp at h
        have hlt := find2_some_lt a b (y :: rest) j hfind
        simp only [List.length_cons] at hlt ⊢
        omega

theorem find2_append_left (a b : Nat) :
    ∀ (l c : List Nat) (i : Nat), find2 a b l = some i → find2 a b (l ++ c) = some i
  | [], _, i, h => by simp [find2] at h
  | [x], _, i, h => by simp [find2] at h
  | x :: y :: rest, c, i, h => by
    simp only [find2] at h
    simp only [List.cons_append, find2]
    by_cases hp : x = a ∧ y = b
    · rw [if_pos hp] at h
      rw [if_pos hp]
      exact h
    · rw [if_neg hp] at h
      rw [if_neg hp]
      cases hfind : find2 a b (y :: rest) with
      | none => rw [hfind] at h; simp at h
      | some j =>
        rw [hfind] at h
        have ihx := find2_append_left a b (y :: rest) c j hfind
        simp only [List.cons_append] at ihx
        simp only [List.append_eq]
        rw [ihx]
        exact h

theorem find2_append_shift (a b : Nat) :
    ∀ (n : List Nat) (hd : Nat) (tl : List Nat), hd ≠ b → find2 a b n = none →
      find2 a b (n ++ hd :: tl) = (find2 a b (hd :: tl)).map (· + n.length)
  | [], hd, tl, hb, hn => by
    cases hfind : find2 a b (hd :: tl) <;> simp [hfind]
  | [x], hd, tl, hb, hn => by
    simp only [List.cons_append, List.nil_append, find2]
    have hp : ¬(x = a ∧ hd = b) := by
      intro hc
      exact hb hc.2
    simp only [if_neg hp]
    cases hfind : find2 a b (hd :: tl) <;> simp [hfind]
  | x :: y :: n1, hd, tl, hb, hn => by
    simp only [find2] at hn
    by_cases hp : x = a ∧ y = b
    · simp [hp] at hn
    · simp only [if_neg hp] at hn
      have hn2 : find2 a b (y :: n1) = none := by
        cases hfind : find2 a b (y :: n1) with
        | none => rfl
        | some j => rw [hfind] at hn; simp at hn
      have ih := find2_append_shift a b (y :: n1) hd tl hb hn2
      simp only [List.cons_append] at ih ⊢
      rw [find2, if_neg hp, ih]
      cases hfind : find2 a b (hd :: tl) with
      | none => simp
      | some j => simp [List.length_cons]; omega

theorem scan_buffer_of_no_complete (buffer : List Nat) (st : WorkerState)
    (h : no_complete buffer = true) : scan_buffer buffer st = (buffer, st) := by
  rw [scan_buffer]
  cases h1 : find2 255 216 buffer with
  | none => simp [h1]
  | some s =>
    cases h2 : find2 255 217 (buffer.drop (s + 2)) with
    | none => simp [h1, h2]
    | some r => simp [no_complete, h1, h2] at h

theorem scan_buffer_cons_frame (buffer : List Nat) (st : WorkerState) (s r : Nat)
    (hs : find2 255 216 buffer = some s)
    (hr : find2 255 217 (buffer.drop (s + 2)) = some r) :
    scan_buffer buffer st =
      scan_buffer (buffer.drop (s + 2 + r + 2))
        { last_frame := some ((buffer.take (s + 2 + r + 2)).drop s),
          frame_count := st.local_count,
          local_count := st.local_count + 1,
          published := st.published ++ [(buffer.take (s + 2 + r + 2)).drop s] } := by
  rw [scan_buffer]
  simp [hs, hr]

theorem scan_buffer_no_complete_aux :
    ∀ (n : Nat) (buffer : List Nat), buffer.length ≤ n →
      ∀ st : WorkerState, no_complete (scan_buffer buffer st).1 = true := by
  intro n
  induction n with
  | zero =>
    intro buffer hb st
    have hbe : buffer = [] := List.length_eq_zero.mp (Nat.le_zero.mp hb)
    subst hbe
    rw [scan_buffer_of_no_complete [] st (by simp [no_complete, find2])]
    simp [no_complete, find2]
  | succ n ihn =>
    intro buffer hb st
    cases hs : find2 255 216 buffer with
    | none =>
      rw [scan_buffer_of_no_complete buffer st (by simp [no_complete, hs])]
      simp [no_complete, hs]
    | some s =>
      cases hr : find2 255 217 (buffer.drop (s + 2)) with
      | none =>
        rw [scan_buffer_of_no_complete buffer st (by simp [no_complete, hs, hr])]
        simp [no_complete, hs, hr]
      | some r =>
        rw [scan_buffer_cons_frame buffer st s r hs hr]
        apply ihn
        have hlt := find2_some_lt 255 216 buffer s hs
        simp only [List.length_drop]
        omega

theorem scan_buffer_no_complete (buffer : List Nat) (st : WorkerState) :
    no_complete (scan_buffer buffer st).1 = true :=
  scan_buffer_no_complete_aux buffer.length buffer (Nat.le_refl _) st

theorem scan_buffer_append_aux :
    ∀ (n : Nat) (buffer : List Nat), buffer.length ≤ n →
      ∀ (st : WorkerState) (c : List Nat),
        scan_buffer (buffer ++ c) st =
          scan_buffer ((scan_buffer buffer st).1 ++ c) (scan_buffer buffer st).2 := by
  intro n
  induction n with
  | zero =>
    intro buffer hb st c
    have hbe : buffer = [] := List.length_eq_zero.mp (Nat.le_zero.mp hb)
    subst hbe
    rw [scan_buffer_of_no_complete [] st (by simp [no_complete, find2])]
  | succ n ihn =>
    intro buffer hb st c
    cases hs : find2 255 216 buffer with
    | none =>
      rw [scan_buffer_of_no_complete buffer st (by simp [no_complete, hs])]
    | some s =>
      cases hr : find2 255 217 (buffer.drop (s + 2)) with
      | none =>
        rw [scan_buffer_of_no_complete buffer st (by simp [no_complete, hs, hr])]
      | some r =>
        have hslt := find2_some_lt 255 216 buffer s hs
        have hrlt := find2_some_lt 255 217 _ r hr
        have hs2 : s + 2 ≤ buffer.length := by omega
        have he2 : s + 2 + r + 2 ≤ buffer.length := by
          simp only [List.length_drop] at hrlt
          omega
        have hsa : find2 255 216 (buffer ++ c) = some s :=
          find2_append_left 255 216 buffer c s hs
        have hra : find2 255 217 ((buffer ++ c).drop (s + 2)) = some r := by
          rw [List.drop_append_of_le_length hs2]
          exact find2_append_left 255 217 _ c r hr
        rw [scan_buffer_cons_frame (buffer ++ c) st s r hsa hra]
        rw [scan_buffer_cons_frame buffer st s r hs hr]
        rw [List.take_append_of_le_length he2, List.drop_append_of_le_length he2]
        apply ihn
        simp only [List.length_drop]
        omega

theorem scan_buffer_append (buffer : List Nat) (st : WorkerState) (c : List Nat) :
    scan_buffer (buffer ++ c) st =
      scan_buffer ((scan_buffer buffer st).1 ++ c) (scan_buffer buffer st).2 :=
  scan_buffer_append_aux buffer.length buffer (Nat.le_refl _) st c

/-- Processing the reads chunk by chunk with a carried buffer reaches the
same final state as one scan over the whole concatenated input, as long
as no read is empty and the starting buffer holds no complete frame. -/
theorem read_worker_flatten :
    ∀ (chunks : List (List Nat)) (buffer : List Nat) (st : WorkerState),
      (∀ c ∈ chunks, c ≠ []) → no_complete buffer = true →
      read_worker chunks buffer st = (scan_buffer (buffer ++ chunks.flatten) st).2
  | [], buffer, st, _, hnc => by
    rw [read_worker]
    rw [show ([] : List (List Nat)).flatten = [] from rfl, List.append_nil,
      scan_buffer_of_no_complete buffer st hnc]
  | c :: rest, buffer, st, hne, hnc => by
    rw [read_worker]
    have hc : ¬(c = []) := hne c (by simp)
    simp only [if_neg hc]
    rw [read_worker_flatten rest (scan_buffer (buffer ++ c) st).1 (scan_buffer (buffer ++ c) st).2
      (fun d hd => hne d (List.mem_cons_of_mem c hd)) (scan_buffer_no_complete _ _)]
    rw [← scan_buffer_append (buffer ++ c) st rest.flatten]
    rw [show (c :: rest).flatten = c ++ rest.flatten from rfl, ← List.append_assoc]

/-- The shape of a trailing incomplete frame at the end of the input: no
bytes at all, or a start marker followed by bytes containing no end
marker. -/
def trailing_incomplete (trailing : List Nat) : Prop :=
  trailing = [] ∨ ∃ q, trailing = 255 :: 216 :: q ∧ find2 255 217 q = none

/-- One scan over `noise ++ frames ++ trailing` publishes exactly the
frames, in order, when the noise holds no start marker, every frame
interior holds no marker, and the trailing part is an incomplete
frame. -/
theorem scan_buffer_frames :
    ∀ (ps : List (List Nat)) (noise trailing : List Nat) (st : WorkerState),
      find2 255 216 noise = none →
      (∀ p ∈ ps, find2 255 216 p = none ∧ find2 255 217 p = none) →
      trailing_incomplete trailing →
      (scan_buffer (noise ++ (ps.map mkFrame).flatten ++ trailing) st).2.published
        = st.published ++ ps.map mkFrame
  | [], noise, trailing, st, hn, _, ht => by
    simp only [List.map_nil]
    rw [show ([] : List (List Nat)).flatten = [] from rfl, List.append_nil]
    rcases ht with ht | ⟨q, htq, hq⟩
    · subst ht
      rw [List.append_nil, scan_buffer_of_no_complete noise st (by simp [no_complete, hn])]
      simp
    · subst htq
      have hfs : find2 255 216 (noise ++ 255 :: 216 :: q) =
          (find2 255 216 (255 :: 216 :: q)).map (· + noise.length) :=
        find2_append_shift 255 216 noise 255 (216 :: q) (by omega) hn
      have hfs2 : find2 255 216 (noise ++ 255 :: 216 :: q) = some noise.length := by
        rw [hfs]
        simp [find2]
      have hdrop : (noise ++ 255 :: 216 :: q).drop (noise.length + 2) = q := by
        rw [List.drop_append 2]
        rfl
      have hnc : no_complete (noise ++ 255 :: 216 :: q) = true := by
        simp [no_complete, hfs2, hdrop, hq]
      rw [scan_buffer_of_no_complete _ st hnc]
      simp
  | p :: ps, noise, trailing, st, hn, hps, ht => by
    have hp := hps p (by simp)
    have hrest : ∀ x ∈ ps, find2 255 216 x = none ∧ find2 255 217 x = none :=
      fun x hx => hps x (List.mem_cons_of_mem p hx)
    -- Normalize the buffer to `noise ++ (mkFrame p ++ Z)` with
    -- `Z = (ps.map mkFrame).flatten ++ trailing`.
    have hbuf : noise ++ ((p :: ps).map mkFrame).flatten ++ trailing =
        noise ++ (mkFrame p ++ ((ps.map mkFrame).flatten ++ trailing)) := by
      simp [List.append_assoc]
    rw [hbuf]
    have hshape : mkFrame p ++ ((ps.map mkFrame).flatten ++ trailing) =
        255 :: 216 :: (p ++ 255 :: 217 :: ((ps.map mkFrame).flatten ++ trailing)) := by
      simp [mkFrame]
    -- start marker found right after the noise
    have hfs : find2 255 216 (noise ++ (mkFrame p ++ ((ps.map mkFrame).flatten ++ trailing)))
        = some noise.length := by
      rw [hshape]
      rw [find2_append_shift 255 216 noise 255 _ (by omega) hn]
      simp [find2]
    -- end marker found right after the frame interior
    have hdropn : (noise ++ (mkFrame p ++ ((ps.map mkFrame).flatten ++ trailing))).drop
        (noise.length + 2) = p ++ 255 :: 217 :: ((ps.map mkFrame).flatten ++ trailing) := by
      rw [hshape, List.drop_append 2]
      rfl
    have hfe : find2 255 217 ((noise ++ (mkFrame p ++ ((ps.map mkFrame).flatten ++ trailing))).drop
        (noise.length + 2)) = some p.length := by
      rw [hdropn]
      rw [find2_append_shift 255 217 p 255 _ (by omega) hp.2]
      simp [find2]
    rw [scan_buffer_cons_frame _ st noise.length p.length hfs hfe]
    -- the extracted slice is exactly `mkFrame p`
    have hidx : noise.length + 2 + p.length + 2 = noise.length + (p.length + 4) := by omega
    have hlenf : (mkFrame p).length = p.length + 4 := by simp [mkFrame]
    have htake : ((noise ++ (mkFrame p ++ ((ps.map mkFrame).flatten ++ trailing))).take
        (noise.length + 2 + p.length + 2)).drop noise.length = mkFrame p := by
      rw [hidx, List.take_append (p.length + 4), List.drop_left]
      rw [← hlenf, List.take_left]
    have hdrope : (noise ++ (mkFrame p ++ ((ps.map mkFrame).flatten ++ trailing))).drop
        (noise.length + 2 + p.length + 2) = (ps.map mkFrame).flatten ++ trailing := by
      rw [hidx, List.drop_append (p.length + 4), ← hlenf, List.drop_left]
    rw [htake, hdrope]
    have ih := scan_buffer_frames ps [] trailing
      { last_frame := some (mkFrame p),
        frame_count := st.local_count,
        local_count := st.local_count + 1,
        published := st.published ++ [mkFrame p] }
      (by simp [find2]) hrest ht
    simp only [List.nil_append] at ih
    rw [ih]
    simp

/-- The counter invariant of the extractor worker: the local counter
equals the number of published frames, and once anything has been
published the stored `frame_count` field lags that number by one. -/
def countInv (st : WorkerState) : Prop :=
  st.local_count = st.published.length ∧
    (st.published ≠ [] → st.frame_count + 1 = st.published.length)

theorem scan_buffer_countInv_aux :
    ∀ (n : Nat) (buffer : List Nat), buffer.length ≤ n →
      ∀ st : WorkerState, countInv st → countInv (scan_buffer buffer st).2 := by
  intro n
  induction n with
  | zero =>
    intro buffer hb st hinv
    have hbe : buffer = [] := List.length_eq_zero.mp (Nat.le_zero.mp hb)
    subst hbe
    rw [scan_buffer_of_no_complete [] st (by simp [no_complete, find2])]
    exact hinv
  | succ n ihn =>
    intro buffer hb st hinv
    cases hs : find2 255 216 buffer with
    | none =>
      rw [scan_buffer_of_no_complete buffer st (by simp [no_complete, hs])]
      exact hinv
    | some s =>
      cases hr : find2 255 217 (buffer.drop (s + 2)) with
      | none =>
        rw [scan_buffer_of_no_complete buffer st (by simp [no_complete, hs, hr])]
        exact hinv
      | some r =>
        rw [scan_buffer_cons_frame buffer st s r hs hr]
        apply ihn
        · have hlt := find2_some_lt 255 216 buffer s hs
          simp only [List.length_drop]
          omega
        · obtain ⟨h1, _⟩ := hinv
          constructor
          · simp [h1]
          · intro _
            simp [h1]

theorem read_worker_countInv :
    ∀ (chunks : List (List Nat)) (buffer : List Nat) (st : WorkerState),
      countInv st → countInv (read_worker chunks buffer st)
  | [], _, st, hinv => hinv
  | c :: rest, buffer, st, hinv => by
    rw [read_worker]
    by_cases hc : c = []
    · simp only [if_pos hc]
      exact hinv
    · simp only [if_neg hc]
      exact read_worker_countInv rest _ _
        (scan_buffer_countInv_aux (buffer ++ c).length _ (Nat.le_refl _) st hinv)

/-! ## Claim C2 -/

/-- C2, corrected: for every byte stream delivered to the frame-extractor
worker in successful non-empty reads, consisting of noise that contains
no occurrence of the start marker `FF D8`, then K well-formed frames
(each starting with `FF D8`, ending with `FF D9`, with neither marker in
the interior), then possibly a trailing incomplete frame, the extractor
publishes exactly the K frames as the session's latest-frame, in input
order, each inclusive of both markers; the noise and the trailing
incomplete frame are never published.  (The original claim allowed
arbitrary noise; noise containing `FF D8` is mis-extracted, see the
counterexample.) -/
theorem C2_extractor_exact_frames (chunks : List (List Nat)) (noise trailing : List Nat)
    (ps : List (List Nat))
    (hchunks : ∀ c ∈ chunks, c ≠ [])
    (hflat : chunks.flatten = noise ++ (ps.map mkFrame).flatten ++ trailing)
    (hnoise : find2 255 216 noise = none)
    (hps : ∀ p ∈ ps, find2 255 216 p = none ∧ find2 255 217 p = none)
    (ht : trailing_incomplete trailing) :
    (run_extractor chunks).published = ps.map mkFrame := by
  rw [run_extractor, read_worker_flatten chunks [] _ hchunks (by simp [no_complete, find2])]
  rw [List.nil_append, hflat, scan_buffer_frames ps noise trailing _ hnoise hps ht]
  simp

/-- Witness for C2: noise `[1]`, two frames, trailing start marker. -/
theorem C2_extractor_exact_frames_witness :
    (run_extractor [[1, 255, 216, 255, 217], [255, 216, 2, 255, 217, 255, 216]]).published
      = [[], [2]].map mkFrame :=
  C2_extractor_exact_frames [[1, 255, 216, 255, 217], [255, 216, 2, 255, 217, 255, 216]]
    [1] [255, 216] [[], [2]]
    (by decide) (by decide) (by decide) (by decide)
    (Or.inr ⟨[], by decide, by decide⟩)

/-- Counterexample for C2 as stated: with the arbitrary noise
`[255, 216, 0]` (which contains the start marker) followed by the single
well-formed frame `mkFrame [170]`, the extractor publishes one blob that
begins with the noise bytes instead of the frame, so the noise is
published and the frame list is not `[mkFrame [170]]`. -/
theorem C2_counterexample :
    (run_extractor [[255, 216, 0] ++ mkFrame [170]]).published
        = [[255, 216, 0] ++ mkFrame [170]] ∧
    (run_extractor [[255, 216, 0] ++ mkFrame [170]]).published ≠ [mkFrame [170]] := by
  constructor
  · simp [run_extractor, read_worker, scan_buffer, find2, mkFrame]
  · simp [run_extractor, read_worker, scan_buffer, find2, mkFrame]

/-! ## Claim C10 -/

/-- C10: once the extractor worker has published K ≥ 1 frames, the
stream's stored `frame_count` equals K - 1, because the field is
assigned from the worker's local counter before that counter is
incremented; `get_status` exposes exactly this stored field, so the
reported frame count lags the published-frame count by one. -/
theorem C10_frame_count_lags (chunks : List (List Nat))
    (hK : (run_extractor chunks).published ≠ []) :
    (run_extractor chunks).frame_count
        = (run_extractor chunks).published.length - 1 ∧
    (run_extractor chunks).frame_count + 1 = (run_extractor chunks).published.length ∧
    ∀ (s : SysState) (key : String) (now : ℚ) (sess : RTMPStream),
      s.streams.lookup key = some sess →
      (get_status key now s).map Status.frame_count = some sess.frame_count := by
  rw [run_extractor] at hK ⊢
  have hinv := read_worker_countInv chunks []
    { last_frame := none, frame_count := 0, local_count := 0, published := [] }
    (by constructor <;> simp)
  have h2 := hinv.2 hK
  refine ⟨by omega, h2, ?_⟩
  intro s key now sess hlk
  simp [get_status, hlk]

/-- Witness for C10: two complete frames in one read. -/
theorem C10_frame_count_lags_witness :
    (run_extractor [[255, 216, 255, 217, 255, 216, 255, 217]]).published ≠ [] ∧
    (run_extractor [[255, 216, 255, 217, 255, 216, 255, 217]]).frame_count
      = (run_extractor [[255, 216, 255, 217, 255, 216, 255, 217]]).published.length - 1 :=
  ⟨by simp [run_extractor, read_worker, scan_buffer, find2],
   (C10_frame_count_lags [[255, 216, 255, 217, 255, 216, 255, 217]]
     (by simp [run_extractor, read_worker, scan_buffer, find2])).1⟩

/-! ## Registry dictionary lemmas -/

theorem lookup_cons_ne {β : Type} (k k1 : String) (v1 : β) (rest : List (String × β))
    (h : k1 ≠ k) : ((k1, v1) :: rest).lookup k = rest.lookup k := by
  have hb : (k == k1) = false := by
    simp only [beq_eq_false_iff_ne, ne_eq]
    intro hh
    exact h hh.symm
  simp [List.lookup, hb]

theorem lookup_cons_self {β : Type} (k : String) (v1 : β) (rest : List (String × β)) :
    ((k, v1) :: rest).lookup k = some v1 := by
  simp [List.lookup]

theorem lookup_dictInsert_self (k : String) (v : RTMPStream) :
    ∀ d : Registry, (dictInsert k v d).lookup k = some v
  | [] => by simp [dictInsert, lookup_cons_self]
  | (k1, v1) :: rest => by
    by_cases h : k1 = k
    · simp [dictInsert, h, lookup_cons_self]
    · simp only [dictInsert, if_neg h]
      rw [lookup_cons_ne k k1 v1 _ h]
      exact lookup_dictInsert_self k v rest

theorem lookup_dictInsert_ne (k k2 : String) (v : RTMPStream) (hne : k2 ≠ k) :
    ∀ d : Registry, (dictInsert k v d).lookup k2 = d.lookup k2
  | [] => by
    simp only [dictInsert]
    rw [lookup_cons_ne k2 k v [] (fun hh => hne hh.symm)]
  | (k1, v1) :: rest => by
    by_cases h : k1 = k
    · subst h
      rw [show dictInsert k1 v ((k1, v1) :: rest) = (k1, v) :: rest from by simp [dictInsert]]
      rw [lookup_cons_ne k2 k1 v rest (fun hh => hne hh.symm),
        lookup_cons_ne k2 k1 v1 rest (fun hh => hne hh.symm)]
    · simp only [dictInsert, if_neg h]
      by_cases hk2 : k1 = k2
      · subst hk2
        rw [lookup_cons_self, lookup_cons_self]
      · rw [lookup_cons_ne k2 k1 v1 _ hk2, lookup_cons_ne k2 k1 v1 _ hk2]
        exact lookup_dictInsert_ne k k2 v hne rest

theorem lookup_dictRemove_self (k : String) :
    ∀ d : Registry, (dictRemove k d).lookup k = none
  | [] => rfl
  | (k1, v1) :: rest => by
    by_cases h : k1 = k
    · rw [dictRemove, List.filter_cons_of_neg (by simp [h])]
      exact lookup_dictRemove_self k rest
    · rw [dictRemove, List.filter_cons_of_pos (by simp [h])]
      rw [lookup_cons_ne k k1 v1 _ h]
      exact lookup_dictRemove_self k rest

theorem remove_stream_lookup_none (s : SysState) (key : String) :
    ((remove_stream key s).2).streams.lookup key = none := by
  by_cases h : (s.streams.lookup key).isSome
  · simp only [remove_stream, if_pos h]
    exact lookup_dictRemove_self key _
  · simp only [remove_stream, if_neg h]
    exact Option.not_isSome_iff_eq_none.mp h

/-! ## Claim C6 -/

/-- C6: `remove_stream` on a key absent from the registry returns
`false` and leaves the whole state unchanged; of two consecutive
`remove_stream` calls with the same key the second always returns
`false` and changes nothing; and after a `remove_stream` that returned
`true`, `get_frame` for that key returns `none`. -/
theorem C6_remove_stream_idempotent (s : SysState) (key : String) :
    (s.streams.lookup key = none → remove_stream key s = (false, s)) ∧
    remove_stream key (remove_stream key s).2 = (false, (remove_stream key s).2) ∧
    ((remove_stream key s).1 = true → get_frame key (remove_stream key s).2 = none) := by
  refine ⟨?_, ?_, ?_⟩
  · intro h
    simp [remove_stream, h]
  · have h := remove_stream_lookup_none s key
    conv_lhs => rw [remove_stream]
    simp [h]
  · intro _
    simp [get_frame, remove_stream_lookup_none s key]

/-- Witness for C6: removal of an absent key from the empty registry, and
removal of a present key followed by a frame lookup. -/
theorem C6_remove_stream_idempotent_witness :
    remove_stream "cam1" initState = (false, initState) ∧
    get_frame "cam1"
      (remove_stream "cam1"
        { streams := [("cam1", { stream_key := "cam1", last_frame := some [1] })],
          alive := [], next_pid := 0 }).2 = none :=
  ⟨(C6_remove_stream_idempotent initState "cam1").1 rfl,
   (C6_remove_stream_idempotent
      { streams := [("cam1", { stream_key := "cam1", last_frame := some [1] })],
        alive := [], next_pid := 0 } "cam1").2.2 (by decide)⟩

/-! ## Claim C7 -/

/-- C7: for every registered session, `get_status` reports
`is_online = true` exactly when the session's last-update time is set
and `now` minus it is strictly below the 30-second staleness threshold;
the query leaves the state untouched, so a stale session remains in the
registry. -/
theorem C7_status_staleness (s : SysState) (key : String) (now : ℚ) (st : RTMPStream)
    (hlk : s.streams.lookup key = some st) :
    (∃ out : Status, (get_status_step key now s).1 = some out ∧
        (out.is_online = true ↔ (st.last_update ≠ 0 ∧ now - st.last_update < 30))) ∧
    (get_status_step key now s).2 = s ∧
    ((get_status_step key now s).2).streams.lookup key = some st := by
  refine ⟨?_, rfl, hlk⟩
  have hgs : get_status key now s = some
      { stream_key := st.stream_key, app := st.app, frame_count := st.frame_count,
        packet_count := st.packet_count,
        is_online := if st.last_update ≠ 0 then decide (now - st.last_update < 30) else false,
        last_update := if st.last_update ≠ 0 then some st.last_update else none } := by
    simp [get_status, hlk]
  refine ⟨_, hgs, ?_⟩
  by_cases h0 : st.last_update = 0
  · simp [h0]
  · simp [h0]

/-- Witness for C7: a session last updated at time 1 queried at time
100 (stale), via the theorem at that concrete state. -/
theorem C7_status_staleness_witness :
    (∃ out : Status,
        (get_status_step "cam1" 100
          { streams := [("cam1", { stream_key := "cam1", last_update := 1 })],
            alive := [], next_pid := 0 }).1 = some out ∧
        (out.is_online = true ↔
          ((1 : ℚ) ≠ 0 ∧ (100 : ℚ) - 1 < 30))) ∧
    (get_status_step "cam1" 100
        { streams := [("cam1", { stream_key := "cam1", last_update := 1 })],
          alive := [], next_pid := 0 }).2 =
      { streams := [("cam1", { stream_key := "cam1", last_update := 1 })],
        alive := [], next_pid := 0 } ∧
    ((get_status_step "cam1" 100
        { streams := [("cam1", { stream_key := "cam1", last_update := 1 })],
          alive := [], next_pid := 0 }).2).streams.lookup "cam1" =
      some { stream_key := "cam1", last_update := 1 } :=
  C7_status_staleness
    { streams := [("cam1", { stream_key := "cam1", last_update := 1 })],
      alive := [], next_pid := 0 } "cam1" 100
    { stream_key := "cam1", last_update := 1 } (by decide)

/-! ## Video-message helper lemmas -/

theorem stream_on_video_tag_nonneg (st : RTMPStream) (t : Int) (payload : List Nat)
    (now : ℚ) (w : WriteOutcome) (x : Int × List Nat)
    (hx : (stream_on_video st t payload now w).2.2 = some x) : 0 ≤ x.1 := by
  unfold stream_on_video at hx
  by_cases hp : st.ffmpeg_process.isSome = true
  · by_cases hs : st.flv_header_sent = false
    · cases w with
      | ok =>
        simp [hp, hs] at hx
        subst hx
        first
        | exact le_max_right _ _
        | simp
      | failHeader => simp [hp, hs] at hx
      | failTag => simp [hp, hs] at hx
    · cases w with
      | ok =>
        simp [hp, hs] at hx
        subst hx
        exact le_max_right _ _
      | failHeader => simp [hp, hs] at hx
      | failTag => simp [hp, hs] at hx
  · simp [hp] at hx

theorem stream_on_video_steady (st : RTMPStream) (t : Int) (payload : List Nat)
    (now : ℚ) (h1 : st.flv_header_sent = true) (h2 : st.ffmpeg_process.isSome = true) :
    stream_on_video st t payload now WriteOutcome.ok =
      ({ st with packet_count := st.packet_count + 1, last_update := now },
        build_flv_tag 9 (max (t - st.base_timestamp) 0).toNat payload,
        some (max (t - st.base_timestamp) 0, payload)) := by
  simp [stream_on_video, h1, h2]

theorem run_video_steady :
    ∀ (msgs : List VideoMsg) (st : RTMPStream),
      st.flv_header_sent = true → st.ffmpeg_process.isSome = true →
      (∀ m ∈ msgs, m.w = WriteOutcome.ok) →
      (run_video st msgs).2
          = msgs.map (fun m => (max (m.t - st.base_timestamp) 0, m.payload)) ∧
      (run_video st msgs).1.base_timestamp = st.base_timestamp
  | [], st, h1, h2, h3 => by simp [run_video]
  | m :: rest, st, h1, h2, h3 => by
    have hm : m.w = WriteOutcome.ok := h3 m (by simp)
    rw [run_video]
    rw [hm, stream_on_video_steady st m.t m.payload m.now h1 h2]
    have ih := run_video_steady rest
      { st with packet_count := st.packet_count + 1, last_update := m.now }
      (by simp [h1]) (by simp [h2]) (fun x hx => h3 x (List.mem_cons_of_mem m hx))
    simp only [] at ih ⊢
    rw [ih.1, ih.2]
    simp

/-! ## Claim C9 -/

/-- C9: an unrecognized command named `releaseStream` or `FCPublish`
gets a synthesized `_result` response on the same chunk id whose second
encoded value is the command's transaction id (0 when it cannot be
parsed); every other unrecognized command yields no response at all (it
is silently ignored, the handler never aborts). -/
theorem C9_unknown_command_fallback (m : UnknownMsg) (hc : m.has_command_name = true) :
    ((m.command_name = "releaseStream" ∨ m.command_name = "FCPublish") →
      ∃ c : ResultChunk, on_unknown_message m = some c ∧ c.chunk_id = m.chunk_id ∧
        c.payload = [.str "_result", .num (m.tid_parse.getD 0), .null, .null] ∧
        (m.tid_parse = none →
          c.payload = [.str "_result", .num 0, .null, .null])) ∧
    (¬(m.command_name = "releaseStream" ∨ m.command_name = "FCPublish") →
      on_unknown_message m = none) := by
  constructor
  · intro hcmd
    refine ⟨create_result_response m.chunk_id (parse_transaction_id m.tid_parse),
      ?_, rfl, rfl, ?_⟩
    · simp [on_unknown_message, hc, hcmd]
    · intro hnone
      simp [create_result_response, parse_transaction_id, hnone]
  · intro hcmd
    simp [on_unknown_message, hc, hcmd]

/-- Witness for C9: a `releaseStream` command with transaction id 7 on
chunk id 3. -/
theorem C9_unknown_command_fallback_witness :
    ∃ c : ResultChunk,
      on_unknown_message
        { has_command_name := true, command_name := "releaseStream",
          chunk_id := 3, tid_parse := some 7 } = some c ∧
      c.chunk_id = 3 ∧
      c.payload = [.str "_result", .num ((some (7 : Int)).getD 0), .null, .null] ∧
      ((some (7 : Int)) = none →
        c.payload = [.str "_result", .num 0, .null, .null]) :=
  (C9_unknown_command_fallback
    { has_command_name := true, command_name := "releaseStream",
      chunk_id := 3, tid_parse := some 7 } rfl).1 (Or.inl rfl)

/-! ## Claim C3 -/

/-- C3: every tag ever handed to the muxer carries a non-negative
timestamp (the clamp applies on every path), and on a run where the
writes succeed, the first video payload's protocol timestamp becomes the
session's base timestamp and every emitted tag carries its message
timestamp minus that baseline, clamped to zero when negative. -/
theorem C3_timestamp_normalization :
    (∀ (st : RTMPStream) (msgs : List VideoMsg) (tp : Int × List Nat),
        tp ∈ (run_video st msgs).2 → 0 ≤ tp.1) ∧
    (∀ (st : RTMPStream) (m1 : VideoMsg) (rest : List VideoMsg),
        st.ffmpeg_process.isSome = true → st.flv_header_sent = false →
        m1.w = WriteOutcome.ok → (∀ m ∈ rest, m.w = WriteOutcome.ok) →
        (run_video st (m1 :: rest)).1.base_timestamp = m1.t ∧
        (run_video st (m1 :: rest)).2 =
          (0, m1.payload) :: rest.map (fun m => (max (m.t - m1.t) 0, m.payload))) := by
  constructor
  · intro st msgs
    induction msgs generalizing st with
    | nil => intro tp h; simp [run_video] at h
    | cons m rest ih =>
      intro tp h
      rw [run_video] at h
      simp only [List.mem_append] at h
      rcases h with h | h
      · cases htag : (stream_on_video st m.t m.payload m.now m.w).2.2 with
        | none => rw [htag] at h; simp at h
        | some x =>
          rw [htag] at h
          simp at h
          rw [h]
          exact stream_on_video_tag_nonneg st m.t m.payload m.now m.w x htag
      · exact ih _ tp h
  · intro st m1 rest hp hs hok hrest
    have hstep : stream_on_video st m1.t m1.payload m1.now m1.w =
        ({ st with packet_count := st.packet_count + 1, last_update := m1.now, flv_header_sent := true, base_timestamp := m1.t },
          build_flv_header ++ build_flv_tag 9 0 m1.payload,
          some (0, m1.payload)) := by
      rw [hok]
      simp [stream_on_video, hp, hs]
    rw [run_video, hstep]
    have hsteady := run_video_steady rest
      { st with packet_count := st.packet_count + 1, last_update := m1.now, flv_header_sent := true, base_timestamp := m1.t }
      (by simp) (by simp [hp]) hrest
    simp only [] at hsteady ⊢
    rw [hsteady.1, hsteady.2]
    simp

/-- Witness for C3: a fresh session, first timestamp 100, then a message
whose timestamp 40 precedes the baseline (clamped to 0) and one at 160. -/
theorem C3_timestamp_normalization_witness :
    (run_video
        { stream_key := "cam1", ffmpeg_process := some 0 }
        [{ t := 100, payload := [1], now := 1, w := WriteOutcome.ok },
          { t := 40, payload := [2], now := 2, w := WriteOutcome.ok },
          { t := 160, payload := [3], now := 3, w := WriteOutcome.ok }]).1.base_timestamp
      = 100 ∧
    (run_video
        { stream_key := "cam1", ffmpeg_process := some 0 }
        [{ t := 100, payload := [1], now := 1, w := WriteOutcome.ok },
          { t := 40, payload := [2], now := 2, w := WriteOutcome.ok },
          { t := 160, payload := [3], now := 3, w := WriteOutcome.ok }]).2 =
      [(0, [1]), (max ((40 : Int) - 100) 0, [2]), (max ((160 : Int) - 100) 0, [3])] := by
  have h := C3_timestamp_normalization.2
    { stream_key := "cam1", ffmpeg_process := some 0 }
    { t := 100, payload := [1], now := 1, w := WriteOutcome.ok }
    [{ t := 40, payload := [2], now := 2, w := WriteOutcome.ok },
      { t := 160, payload := [3], now := 3, w := WriteOutcome.ok }]
    rfl rfl rfl (by decide)
  refine ⟨h.1, ?_⟩
  rw [h.2]
  rfl

/-! ## Claim C4 -/

/-- C4: the muxer's container header is the fixed 13-byte FLV header
(signature `FLV`, version 1, video-only flag 1, header size 9, zero
previous-tag-size), and every tag consists of exactly one tag-type byte,
3 big-endian payload-length bytes, 3 timestamp bytes plus one extended
timestamp byte, a constant 3-byte zero stream id, the raw payload, and
a 4-byte big-endian previous-tag-size equal to 11 + payload length;
`on_video_message` emits header-then-tag on the first payload and a bare
tag afterwards. -/
theorem C4_flv_layout :
    build_flv_header
        = [0x46, 0x4C, 0x56, 0x01, 0x01, 0x00, 0x00, 0x00, 0x09, 0x00, 0x00, 0x00, 0x00] ∧
    build_flv_header.length = 13 ∧
    (∀ (ts : Nat) (data : List Nat), ts < 2 ^ 32 → data.length < 2 ^ 24 →
      ∃ L T : List Nat, ∃ ext : Nat, ∃ P : List Nat,
        build_flv_tag 9 ts data = 9 :: (L ++ (T ++ ([ext] ++ ([0, 0, 0] ++ (data ++ P))))) ∧
        L.length = 3 ∧ T.length = 3 ∧ P.length = 4 ∧
        beVal L = data.length ∧ ext * 2 ^ 24 + beVal T = ts ∧
        beVal P = 11 + data.length) ∧
    (∀ (st : RTMPStream) (t : Int) (payload : List Nat) (now : ℚ),
      st.ffmpeg_process.isSome = true →
      (st.flv_header_sent = false →
        (stream_on_video st t payload now WriteOutcome.ok).2.1 =
          build_flv_header ++ build_flv_tag 9 0 payload) ∧
      (st.flv_header_sent = true →
        (stream_on_video st t payload now WriteOutcome.ok).2.1 =
          build_flv_tag 9 (max (t - st.base_timestamp) 0).toNat payload)) := by
  refine ⟨rfl, rfl, ?_, ?_⟩
  · intro ts data hts hdata
    refine ⟨[(data.length >>> 16) % 256, (data.length >>> 8) % 256, data.length % 256],
      [(ts >>> 16) % 256, (ts >>> 8) % 256, ts % 256], (ts >>> 24) % 256,
      [((11 + data.length) >>> 24) % 256, ((11 + data.length) >>> 16) % 256,
        ((11 + data.length) >>> 8) % 256, (11 + data.length) % 256],
      ?_, rfl, rfl, rfl, ?_, ?_, ?_⟩
    · simp [build_flv_tag]
    · simp only [beVal, List.foldl, Nat.shiftRight_eq_div_pow]
      norm_num
      omega
    · simp only [beVal, List.foldl, Nat.shiftRight_eq_div_pow]
      norm_num
      omega
    · simp only [beVal, List.foldl, Nat.shiftRight_eq_div_pow]
      norm_num
      omega
  · intro st t payload now hp
    constructor
    · intro hs
      simp [stream_on_video, hp, hs]
    · intro hs
      simp [stream_on_video, hp, hs]

/-- Witness for C4: the tag layout at timestamp `2 ^ 24 + 5` with a
3-byte payload. -/
theorem C4_flv_layout_witness :
    ∃ L T : List Nat, ∃ ext : Nat, ∃ P : List Nat,
      build_flv_tag 9 (2 ^ 24 + 5) [10, 20, 30]
          = 9 :: (L ++ (T ++ ([ext] ++ ([0, 0, 0] ++ ([10, 20, 30] ++ P))))) ∧
      L.length = 3 ∧ T.length = 3 ∧ P.length = 4 ∧
      beVal L = 3 ∧ ext * 2 ^ 24 + beVal T = 2 ^ 24 + 5 ∧
      beVal P = 14 :=
  C4_flv_layout.2.2.1 (2 ^ 24 + 5) [10, 20, 30] (by norm_num) (by norm_num)

/-! ## Claim C5 -/

theorem stream_on_video_packet (st : RTMPStream) (t : Int) (payload : List Nat) (now : ℚ)
    (w : WriteOutcome) :
    (stream_on_video st t payload now w).1.packet_count = st.packet_count + 1 ∧
    (stream_on_video st t payload now w).1.last_update = now := by
  unfold stream_on_video
  by_cases hp : st.ffmpeg_process.isSome = true <;>
    by_cases hs : st.flv_header_sent = false <;>
      cases w <;> simp [hp, hs]

/-- One video message of the C5 end-to-end scenario. -/
def c5_step (t : Int) (payload : List Nat) (now : ℚ) (w : WriteOutcome) (s : SysState) :
    SysState :=
  (on_video_message (some "cam1") t payload now w s).1

/-- The C5 end-to-end scenario: publish "cam1", then five video messages
with payload sizes 10, 20, 5, 40 and 15 bytes, two of whose ffmpeg
writes fail. -/
def c5_final : SysState :=
  c5_step 5 (List.replicate 15 1) 5 WriteOutcome.ok
    (c5_step 4 (List.replicate 40 7) 4 WriteOutcome.ok
      (c5_step 3 (List.replicate 5 6) 3 WriteOutcome.failTag
        (c5_step 2 (List.replicate 20 9) 2 WriteOutcome.ok
          (c5_step 1 (List.replicate 10 8) 1 WriteOutcome.failHeader
            (on_ns_publish "cam1" 0 true initState).2))))

/-- C5, corrected: for every video message processed while the
controller's stream key is non-empty and its session registered, the
session stays registered with its packet counter incremented by exactly
one and its last-update time refreshed, whatever the outcome of the
ffmpeg write; consequently the end-to-end scenario (publish "cam1", five
messages, two failed writes) leaves one listed session for "cam1" with
`packet_count = 5`.  (The original claim omitted the non-empty-key
condition: a session published under the empty stream key is present in
the registry yet its video messages are dropped by the controller's
falsy-key guard — see the counterexample.) -/
theorem C5_packet_count_resilient :
    (∀ (s : SysState) (key : String) (st : RTMPStream) (t : Int) (payload : List Nat)
        (now : ℚ) (w : WriteOutcome),
      key ≠ "" →
      s.streams.lookup key = some st →
      ∃ st2 : RTMPStream,
        ((on_video_message (some key) t payload now w s).1).streams.lookup key = some st2 ∧
        st2.packet_count = st.packet_count + 1 ∧ st2.last_update = now) ∧
    (∃ out : Status, list_streams 6 c5_final = [some out] ∧
      out.stream_key = "cam1" ∧ out.packet_count = 5) := by
  constructor
  · intro s key st t payload now w hkey hlk
    refine ⟨(stream_on_video st t payload now w).1, ?_, ?_, ?_⟩
    · simp [on_video_message, hkey, hlk, lookup_dictInsert_self]
    · exact (stream_on_video_packet st t payload now w).1
    · exact (stream_on_video_packet st t payload now w).2
  · exact ⟨_, rfl, rfl, rfl⟩

/-- Counterexample for C5 as stated: publishing under the empty stream
key registers a session, but a subsequent video message is dropped by
the `if not self.stream_key` guard — the session is present in the
registry and its packet counter stays 0 instead of reaching 1. -/
theorem C5_counterexample :
    ((on_ns_publish "" 0 true initState).2).streams.lookup "" ≠ none ∧
    ∃ st : RTMPStream,
      ((on_video_message (some "") 1 [1] 1 WriteOutcome.ok
          (on_ns_publish "" 0 true initState).2).1).streams.lookup "" = some st ∧
      st.packet_count = 0 := by
  refine ⟨by decide, ⟨_, rfl, rfl⟩⟩

/-- Witness for C5: one message with a failing tag write against a
registered session with three packets counted. -/
def c5_wit_state : SysState :=
  { streams := [("cam1", { stream_key := "cam1", packet_count := 3, ffmpeg_process := some 0, flv_header_sent := true })], alive := [0], next_pid := 1 }

theorem C5_packet_count_resilient_witness :
    ∃ st2 : RTMPStream,
      ((on_video_message (some "cam1") 9 [1] 2 WriteOutcome.failTag c5_wit_state).1).streams.lookup "cam1"
        = some st2 ∧ st2.packet_count = 3 + 1 ∧ st2.last_update = 2 :=
  C5_packet_count_resilient.1 c5_wit_state "cam1"
    { stream_key := "cam1", packet_count := 3, ffmpeg_process := some 0, flv_header_sent := true }
    9 [1] 2 WriteOutcome.failTag (by decide) rfl

/-! ## Claim C1 -/

/-- The registry's key list. -/
def keys (d : Registry) : List String := d.map Prod.fst

theorem keys_dictInsert (k : String) (v : RTMPStream) :
    ∀ d : Registry, keys (dictInsert k v d)
      = if k ∈ keys d then keys d else keys d ++ [k]
  | [] => by simp [dictInsert, keys]
  | (k1, v1) :: rest => by
    by_cases h : k1 = k
    · subst h
      rw [show dictInsert k1 v ((k1, v1) :: rest) = (k1, v) :: rest from by simp [dictInsert]]
      simp [keys]
    · rw [show dictInsert k v ((k1, v1) :: rest) = (k1, v1) :: dictInsert k v rest from by
        simp [dictInsert, h]]
      rw [show keys ((k1, v1) :: dictInsert k v rest) = k1 :: keys (dictInsert k v rest) from rfl]
      rw [keys_dictInsert k v rest]
      by_cases hm : k ∈ keys rest
      · have hA : k ∈ List.map Prod.fst rest := by simpa [keys] using hm
        have hB : k ∈ k1 :: List.map Prod.fst rest := List.mem_cons_of_mem k1 hA
        simp only [keys, List.map_cons]
        rw [if_pos hA, if_pos hB]
      · have hA : k ∉ List.map Prod.fst rest := by simpa [keys] using hm
        have hB : ¬(k ∈ k1 :: List.map Prod.fst rest) := by
          intro hk
          rcases List.mem_cons.mp hk with h1 | h1
          · exact h h1.symm
          · exact hA h1
        simp only [keys, List.map_cons]
        rw [if_neg hA, if_neg hB]
        simp

theorem nodup_keys_dictInsert (k : String) (v : RTMPStream) (d : Registry)
    (h : (keys d).Nodup) : (keys (dictInsert k v d)).Nodup := by
  rw [keys_dictInsert]
  by_cases hm : k ∈ keys d
  · simpa [hm] using h
  · simp only [hm, if_false]
    simp [List.nodup_append, h, hm]

theorem nodup_keys_dictRemove (k : String) (d : Registry)
    (h : (keys d).Nodup) : (keys (dictRemove k d)).Nodup :=
  List.Nodup.sublist (List.Sublist.map Prod.fst (List.filter_sublist d)) h

theorem stop_ffmpeg_streams_cases (key : String) (s : SysState) :
    (stop_ffmpeg key s).streams = s.streams ∨
    ∃ v, (stop_ffmpeg key s).streams = dictInsert key v s.streams := by
  cases hlk : s.streams.lookup key with
  | none => exact Or.inl (by simp [stop_ffmpeg, hlk])
  | some st =>
    cases hproc : st.ffmpeg_process with
    | none =>
      exact Or.inr ⟨{ st with running := false }, by simp [stop_ffmpeg, hlk, hproc]⟩
    | some pid =>
      exact Or.inr ⟨{ st with running := false, ffmpeg_process := none },
        by simp [stop_ffmpeg, hlk, hproc]⟩

theorem start_ffmpeg_streams_cases (key : String) (ok : Bool) (s : SysState) :
    (start_ffmpeg key ok s).streams = s.streams ∨
    ∃ v, (start_ffmpeg key ok s).streams = dictInsert key v s.streams := by
  cases hlk : s.streams.lookup key with
  | none => exact Or.inl (by simp [start_ffmpeg, hlk])
  | some st =>
    cases ok with
    | false => exact Or.inl (by simp [start_ffmpeg, hlk])
    | true =>
      exact Or.inr ⟨{ st with ffmpeg_process := some s.next_pid, running := true },
        by simp [start_ffmpeg, hlk]⟩

theorem nodup_keys_stop_ffmpeg (key : String) (s : SysState)
    (h : (keys s.streams).Nodup) : (keys (stop_ffmpeg key s).streams).Nodup := by
  rcases stop_ffmpeg_streams_cases key s with hc | ⟨v, hc⟩
  · rw [hc]; exact h
  · rw [hc]; exact nodup_keys_dictInsert key v _ h

theorem stop_ffmpeg_alive_of_proc (s : SysState) (key : String) (st : RTMPStream) (pid : Nat)
    (hlk : s.streams.lookup key = some st) (hproc : st.ffmpeg_process = some pid) :
    (stop_ffmpeg key s).alive = s.alive.filter (fun q => q ≠ pid) := by
  simp [stop_ffmpeg, hlk, hproc]

/-- C1, corrected: for a non-empty stream key, every removal path of a
session — the administrative `remove_stream` and the controller's
`_cleanup` (run on close/delete commands, stream close and disconnect)
— terminates the session's owned ffmpeg process: afterwards the key is
gone from the registry and the owned process id is no longer alive.
Key uniqueness of the registry is preserved by publish, removal and
cleanup.  (Contrary to the original claim, a second publish under an
active key replaces the session WITHOUT terminating the prior process —
see the counterexample.) -/
theorem C1_removal_bounds_process (s : SysState) (key : String) (st : RTMPStream)
    (now : ℚ) (spawn_ok : Bool)
    (hkey : key ≠ "")
    (hlk : s.streams.lookup key = some st) :
    (((remove_stream key s).2).streams.lookup key = none ∧
      ∀ pid : Nat, st.ffmpeg_process = some pid →
        pid ∉ ((remove_stream key s).2).alive) ∧
    (((controller_cleanup (some key) s).2).streams.lookup key = none ∧
      ∀ pid : Nat, st.ffmpeg_process = some pid →
        pid ∉ ((controller_cleanup (some key) s).2).alive) ∧
    ((keys s.streams).Nodup →
      (keys ((on_ns_publish key now spawn_ok s).2).streams).Nodup ∧
      (keys ((remove_stream key s).2).streams).Nodup ∧
      (keys ((controller_cleanup (some key) s).2).streams).Nodup) := by
  have hrs2 : (remove_stream key s).2 =
      { stop_ffmpeg key s with streams := dictRemove key (stop_ffmpeg key s).streams } := by
    simp [remove_stream, hlk]
  have hcc2 : (controller_cleanup (some key) s).2 =
      { stop_ffmpeg key s with streams := dictRemove key (stop_ffmpeg key s).streams } := by
    simp [controller_cleanup, hkey]
  refine ⟨⟨remove_stream_lookup_none s key, ?_⟩, ⟨?_, ?_⟩, ?_⟩
  · intro pid hproc
    rw [hrs2]
    rw [show ({ stop_ffmpeg key s with streams := dictRemove key (stop_ffmpeg key s).streams } : SysState).alive = (stop_ffmpeg key s).alive from rfl]
    rw [stop_ffmpeg_alive_of_proc s key st pid hlk hproc]
    simp
  · rw [hcc2]
    exact lookup_dictRemove_self key _
  · intro pid hproc
    rw [hcc2]
    rw [show ({ stop_ffmpeg key s with streams := dictRemove key (stop_ffmpeg key s).streams } : SysState).alive = (stop_ffmpeg key s).alive from rfl]
    rw [stop_ffmpeg_alive_of_proc s key st pid hlk hproc]
    simp
  · intro hnd
    refine ⟨?_, ?_, ?_⟩
    · have hpub : ((on_ns_publish key now spawn_ok s).2).streams
          = (start_ffmpeg key spawn_ok
              { s with streams := dictInsert key { stream_key := key, last_update := now } s.streams }).streams := rfl
      rw [hpub]
      rcases start_ffmpeg_streams_cases key spawn_ok
          { s with streams := dictInsert key { stream_key := key, last_update := now } s.streams }
        with hc | ⟨v, hc⟩
      · rw [hc]
        exact nodup_keys_dictInsert key _ _ hnd
      · rw [hc]
        exact nodup_keys_dictInsert key v _ (nodup_keys_dictInsert key _ _ hnd)
    · rw [hrs2]
      exact nodup_keys_dictRemove key _ (nodup_keys_stop_ffmpeg key s hnd)
    · rw [hcc2]
      exact nodup_keys_dictRemove key _ (nodup_keys_stop_ffmpeg key s hnd)

/-- Witness for C1: removing a registered session owning process 0. -/
def c1_wit_state : SysState :=
  { streams := [("k", { stream_key := "k", ffmpeg_process := some 0, running := true })], alive := [0], next_pid := 1 }

theorem C1_removal_bounds_process_witness :
    ((remove_stream "k" c1_wit_state).2).streams.lookup "k" = none ∧
    (0 : Nat) ∉ ((remove_stream "k" c1_wit_state).2).alive :=
  ⟨(C1_removal_bounds_process c1_wit_state "k"
      { stream_key := "k", ffmpeg_process := some 0, running := true } 0 true (by decide) rfl).1.1,
   (C1_removal_bounds_process c1_wit_state "k"
      { stream_key := "k", ffmpeg_process := some 0, running := true } 0 true (by decide) rfl).1.2 0 rfl⟩

/-- Counterexample for C1 as stated: after `publish "k"` twice, the first
publish's ffmpeg process (id 0) is still alive although its session has
been replaced in the registry — the replaced session's process outlives
the session. -/
theorem C1_counterexample :
    (0 : Nat) ∈ ((on_ns_publish "k" 0 true (on_ns_publish "k" 0 true initState).2).2).alive ∧
    (∀ kv ∈ ((on_ns_publish "k" 0 true (on_ns_publish "k" 0 true initState).2).2).streams,
      kv.2.ffmpeg_process ≠ some 0) ∧
    ((on_ns_publish "k" 0 true ((on_ns_publish "k" 0 true initState).2)).2).streams.lookup "k"
      ≠ none := by
  refine ⟨?_, ?_, ?_⟩ <;> decide

/-! ## Claim C8 -/

theorem mjpeg_run_chain :
    ∀ (polls : List Poll) (last : Option (List Nat)) (cnt : Nat),
      List.Chain' (fun a b => a ≠ b) (mjpeg_run polls last cnt).1 ∧
      (∀ x : List Nat, ((mjpeg_run polls last cnt).1).head? = some x → some x ≠ last)
  | [], last, cnt => by simp [mjpeg_run]
  | .absent :: rest, last, cnt => by simp [mjpeg_run]
  | .present f :: rest, last, cnt => by
    rw [mjpeg_run]
    by_cases ht : frameTruthy f = true
    · rw [if_pos ht]
      by_cases hne : f ≠ last
      · rw [if_pos hne]
        obtain ⟨g, hg⟩ : ∃ g, f = some g := by
          cases f with
          | none => simp [frameTruthy] at ht
          | some g => exact ⟨g, rfl⟩
        subst hg
        have ih := mjpeg_run_chain rest (some g) 0
        constructor
        · rw [List.chain'_cons']
          refine ⟨?_, ih.1⟩
          intro y hy
          rw [Option.mem_def] at hy
          simp only [Option.getD_some]
          exact fun hgy => (ih.2 y hy) (congrArg some hgy.symm)
        · intro x hx
          simp only [Option.getD_some, List.head?_cons, Option.some.injEq] at hx
          subst hx
          exact hne
      · rw [if_neg hne]
        exact mjpeg_run_chain rest last 0
    · rw [if_neg ht]
      by_cases hc : cnt + 1 > 200
      · rw [if_pos hc]
        simp
      · rw [if_neg hc]
        exact mjpeg_run_chain rest last (cnt + 1)

theorem mjpeg_run_no_frame :
    ∀ (k cnt : Nat) (rest : List Poll) (last : Option (List Nat)),
      1 ≤ k → cnt + k = 201 →
      mjpeg_run (List.replicate k (Poll.present none) ++ rest) last cnt = ([], k)
  | 0, cnt, rest, last, h1, h2 => by omega
  | 1, cnt, rest, last, h1, h2 => by
    have hc : cnt = 200 := by omega
    subst hc
    simp [mjpeg_run, frameTruthy]
  | k + 2, cnt, rest, last, h1, h2 => by
    rw [List.replicate_succ, List.cons_append, mjpeg_run]
    rw [if_neg (by simp [frameTruthy])]
    rw [if_neg (by omega : ¬cnt + 1 > 200)]
    rw [mjpeg_run_no_frame (k + 1) (cnt + 1) rest last (by omega) (by omega)]

theorem mjpeg_run_present_all :
    ∀ (polls : List Poll) (last : Option (List Nat)) (cnt : Nat),
      (∀ p ∈ polls, ∃ g : List Nat, g ≠ [] ∧ p = Poll.present (some g)) →
      (mjpeg_run polls last cnt).2 = polls.length
  | [], _, _, _ => rfl
  | p :: rest, last, cnt, h => by
    obtain ⟨g, hg, hp⟩ := h p (by simp)
    subst hp
    rw [mjpeg_run]
    rw [if_pos (by simp [frameTruthy, hg])]
    by_cases hne : (some g : Option (List Nat)) ≠ last
    · rw [if_pos hne]
      simp [mjpeg_run_present_all rest (some g) 0 (fun x hx => h x (List.mem_cons_of_mem _ hx))]
    · rw [if_neg hne]
      simp [mjpeg_run_present_all rest last 0 (fun x hx => h x (List.mem_cons_of_mem _ hx))]

/-- C8: for every viewer sequence of the broadcaster, (a) every yielded
record carries a frame different from the previously yielded one;
(b) 201 consecutive polls finding no frame at all terminate the
sequence — exactly the 201 polls are consumed, nothing is yielded past
them; (c) a poll that finds the key absent terminates the sequence
immediately; (d) polls that find a present (non-empty) frame never count
toward the no-frame termination bound: if every poll finds a frame the
loop consumes all of them. -/
theorem C8_mjpeg_broadcaster :
    (∀ (polls : List Poll) (last : Option (List Nat)) (cnt : Nat),
        List.Chain' (fun a b => a ≠ b) (mjpeg_run polls last cnt).1) ∧
    (∀ (rest : List Poll) (last : Option (List Nat)),
        mjpeg_run (List.replicate 201 (Poll.present none) ++ rest) last 0 = ([], 201)) ∧
    (∀ (rest : List Poll) (last : Option (List Nat)) (cnt : Nat),
        mjpeg_run (Poll.absent :: rest) last cnt = ([], 1)) ∧
    (∀ (polls : List Poll) (last : Option (List Nat)) (cnt : Nat),
        (∀ p ∈ polls, ∃ g : List Nat, g ≠ [] ∧ p = Poll.present (some g)) →
        (mjpeg_run polls last cnt).2 = polls.length) := by
  refine ⟨?_, ?_, ?_, ?_⟩
  · intro polls last cnt
    exact (mjpeg_run_chain polls last cnt).1
  · intro rest last
    exact mjpeg_run_no_frame 201 0 rest last (by omega) (by omega)
  · intro rest last cnt
    rfl
  · exact mjpeg_run_present_all

/-- Witness for C8: three polls all finding a frame (one duplicate) are
all consumed. -/
theorem C8_mjpeg_broadcaster_witness :
    (mjpeg_run [Poll.present (some [1]), Poll.present (some [1]), Poll.present (some [2])]
        none 0).2 = 3 :=
  C8_mjpeg_broadcaster.2.2.2
    [Poll.present (some [1]), Poll.present (some [1]), Poll.present (some [2])] none 0
    (by
      intro p hp
      simp only [List.mem_cons, List.not_mem_nil, or_false] at hp
      rcases hp with rfl | rfl | rfl
      · exact ⟨[1], by simp, rfl⟩
      · exact ⟨[1], by simp, rfl⟩
      · exact ⟨[2], by simp, rfl⟩)

end Venus
